import Mathlib

/-!
Verification of the SwiftBar plugin claude-monitor.30s.py.

The script is shallowly embedded: Python floats become rationals, the JSON
settings file becomes an explicit, possibly absent or corrupt document, and
every call into the external claude-monitor library is a parameter of the
environment that either returns a value or raises (modelled with Except).
A raised exception that the script does not catch surfaces as an
Except.error of the whole run.
-/

namespace CCM

/-- JSON values, as produced by json.load. -/
inductive JVal where
  | null
  | bool (b : Bool)
  | num (q : ℚ)
  | str (s : String)
  | list (xs : List JVal)
  | obj (kvs : List (String × JVal))

/-- State of a JSON file on disk: absent, unparseable text, parseable but
not a JSON object, or a parsed object (an ordered key-value document). -/
inductive FileState where
  | missing
  | corrupt
  | invalidDoc (v : JVal)
  | parsed (doc : List (String × JVal))

/-- First-match lookup in a JSON object document (dict access). -/
def lookupKey : List (String × JVal) → String → Option JVal
  | [], _ => none
  | (k, v) :: rest, key => if k = key then some v else lookupKey rest key

/-- Python dict update: replace the first binding of the key in place,
otherwise append it (insertion order is preserved). -/
def setKey : List (String × JVal) → String → JVal → List (String × JVal)
  | [], k, v => [(k, v)]
  | (k0, v0) :: rest, k, v =>
      if k0 = k then (k, v) :: rest else (k0, v0) :: setKey rest k v

-- Color thresholds (SwiftBar ANSI hex), from the script header.
def COLOR_GREEN : String := "#6BDB7B"
def COLOR_YELLOW : String := "#FFD95C"
def COLOR_ORANGE : String := "#FF9F43"
def COLOR_RED : String := "#FF6B6B"
def COLOR_GRAY : String := "#8E8E93"
def COLOR_WHITE : String := "#FFFFFF"
def COLOR_DIM : String := "#A0A0A8"
def COLOR_LABEL : String := "#B0B0B8"

def TITLE_FONT : String := "SFMono-Regular"
def TITLE_SIZE : Nat := 12
def TITLE_OFFSET : Nat := 2
def MONO_FONT : String := "SFMono-Regular"
def BODY_SIZE : Nat := 12
def SMALL_SIZE : Nat := 11

/-- get_color: hex color from usage percentage (thresholds 95/80/50,
inclusive lower bounds). -/
def get_color (pct : ℚ) : String :=
  if 95 ≤ pct then COLOR_RED
  else if 80 ≤ pct then COLOR_ORANGE
  else if 50 ≤ pct then COLOR_YELLOW
  else COLOR_GREEN

/-- Python int() applied to a real number: truncation toward zero. -/
def pyTrunc (q : ℚ) : Int := if q < 0 then ⌈q⌉ else ⌊q⌋

/-- Python string repetition: s * n is empty for n below zero. -/
def strRepeat (c : Char) (n : Int) : String := String.mk (List.replicate n.toNat c)

def glyphFull : Char := '█'
def glyphEmpty : Char := '░'

/-- bar_graph: filled = min(int(pct / 100 * width), width), then
filled block glyphs followed by width - filled light glyphs. -/
def bar_graph (pct : ℚ) (width : Int) : String :=
  let filled := min (pyTrunc (pct / 100 * (width : ℚ))) width
  strRepeat glyphFull filled ++ strRepeat glyphEmpty (width - filled)

/-- Left-pad a string with zeros up to the given length. -/
def padZeros (s : String) (n : Nat) : String :=
  String.mk (List.replicate (n - s.length) '0') ++ s

/-- Right-align a string in a field of the given width (spaces). -/
def padLeft (s : String) (n : Nat) : String :=
  String.mk (List.replicate (n - s.length) ' ') ++ s

/-- Left-align a string in a field of the given width (spaces). -/
def padRight (s : String) (n : Nat) : String :=
  s ++ String.mk (List.replicate (n - s.length) ' ')

/-- Round to the nearest integer, ties to even (Python float formatting). -/
def roundHalfEven (q : ℚ) : Int :=
  let f := ⌊q⌋
  if q - f < 1 / 2 then f
  else if 1 / 2 < q - f then f + 1
  else if f % 2 = 0 then f else f + 1

/-- Fixed-point decimal rendering with prec digits after the point,
modelling a Python format of the shape colon dot prec f. -/
def fmtFixed (q : ℚ) (prec : Nat) : String :=
  let scaled := roundHalfEven (q * (10 : ℚ) ^ prec)
  let a := scaled.natAbs
  let ip := a / 10 ^ prec
  let fp := a % 10 ^ prec
  (if scaled < 0 then "-" else "") ++
    (if prec = 0 then toString ip
     else toString ip ++ "." ++ padZeros (toString fp) prec)

/-- Insert a comma after every third character of a reversed digit list. -/
def chunk3 : List Char → List Char
  | a :: b :: c :: d :: rest => a :: b :: c :: ',' :: chunk3 (d :: rest)
  | l => l

/-- fmt_number: thousands-separated integer. -/
def fmt_number (n : Int) : String :=
  let grouped := String.mk (chunk3 (toString n.natAbs).toList.reverse).reverse
  (if n < 0 then "-" else "") ++ grouped

/-- fmt_cost: dollar sign and two decimals. -/
def fmt_cost (c : ℚ) : String := "$" ++ fmtFixed c 2

/-- fmt_pct: value as a percentage of a total, one decimal; the guard for a
non-positive total short-circuits before any division. -/
def fmt_pct (v total : ℚ) : String :=
  if total ≤ 0 then "0.0%" else fmtFixed (v / total * 100) 1 ++ "%"

/-- fmt_duration: minutes into a human-readable duration. -/
def fmt_duration (minutes : ℚ) : String :=
  if minutes < 1 then "<1m"
  else if minutes < 60 then toString ⌊minutes⌋ ++ "m"
  else toString ⌊minutes / 60⌋ ++ "h " ++ toString ⌊minutes - 60 * ⌊minutes / 60⌋⌋ ++ "m"

def VALID_PLANS : List String := ["pro", "max5", "max20", "custom"]

def PLAN_LABELS : List (String × String) :=
  [("pro", "Pro"), ("max5", "Max 5"), ("max20", "Max 20"), ("custom", "Custom")]

def DISPLAY_METRICS : List (String × String) :=
  [("token_pct", "Token %"), ("cost", "Cost ($)"), ("cost_pct", "Cost %"),
   ("msg", "Messages"), ("msg_pct", "Message %")]

def DEFAULT_DISPLAY : List String := ["token_pct", "cost"]

/-- The set of recognized display metric identifiers. -/
def valid_keys : List String := DISPLAY_METRICS.map Prod.fst

/-- One character of Python lower(): the script only compares the result
against lowercase ASCII tokens, so ASCII lowering is the faithful model. -/
def pyLowerChar (c : Char) : Char :=
  if 'A' ≤ c ∧ c ≤ 'Z' then Char.ofNat (c.toNat + 32) else c

/-- The whitespace characters Python strip() removes. -/
def pySpace (c : Char) : Bool :=
  c = ' ' ∨ c = '\t' ∨ c = '\n' ∨ c = '\r' ∨ c = '\x0b' ∨ c = '\x0c'

/-- Python lower() followed by strip(). -/
def pyLowerStrip (s : String) : String :=
  String.mk ((((s.data.map pyLowerChar).dropWhile pySpace).reverse.dropWhile pySpace).reverse)

/-- The plan value a JSON file yields for get_plan: the stored plan key,
lowercased and stripped, if it is a string naming a valid plan; any parse
failure, missing key, non-string or invalid value falls through. -/
def planFromFile (fs : FileState) : Option String :=
  match fs with
  | .parsed doc =>
      match lookupKey doc "plan" with
      | some (JVal.str s) =>
          let p := pyLowerStrip s
          if VALID_PLANS.contains p then some p else none
      | _ => none
  | _ => none

/-- get_plan: environment variable, then widget config, then the legacy
last_used file, then the default "pro". -/
def get_plan (ccmPlan : String) (config legacy : FileState) : String :=
  let p := pyLowerStrip ccmPlan
  if VALID_PLANS.contains p then p
  else
    match planFromFile config with
    | some q => q
    | none =>
        match planFromFile legacy with
        | some q => q
        | none => "pro"

/-- The document the config file currently holds for a read-merge-write:
a missing or unparseable file is treated as the empty document. -/
def configDoc : FileState → List (String × JVal)
  | .parsed doc => doc
  | _ => []

/-- The save in the script (a _save_config call): read-merge-write of one
key. When the file parses to a non-object JSON value the item assignment
raises a TypeError, which no caller catches. -/
def save_config (fs : FileState) (key : String) (value : JVal) :
    Except String FileState :=
  match fs with
  | .invalidDoc _ => .error "TypeError"
  | _ => .ok (.parsed (setKey (configDoc fs) key value))

/-- set_plan: persist the chosen plan under the plan key. -/
def set_plan (fs : FileState) (plan : String) : Except String FileState :=
  save_config fs "plan" (JVal.str plan)

/-- The filter inside get_display. Membership of a JSON array element in
the set of valid keys keeps exactly the recognized strings; an unhashable
element (a nested array or object) raises a TypeError, which the caller
catches, so the whole filter reports failure. -/
def filterValid : List JVal → Option (List String)
  | [] => some []
  | JVal.str s :: rest =>
      (filterValid rest).map (fun r => if s ∈ valid_keys then s :: r else r)
  | JVal.list _ :: _ => none
  | JVal.obj _ :: _ => none
  | _ :: rest => filterValid rest

/-- get_display: the stored display key filtered to recognized
identifiers; the default list when the file is missing, unparseable, the
key is absent or not an array, the filter raises, or it comes out empty. -/
def get_display (fs : FileState) : List String :=
  match fs with
  | .parsed doc =>
      match lookupKey doc "display" with
      | some (JVal.list xs) =>
          match filterValid xs with
          | some (d :: ds) => d :: ds
          | _ => DEFAULT_DISPLAY
      | _ => DEFAULT_DISPLAY
  | _ => DEFAULT_DISPLAY

/-- The list toggle_display computes before saving: remove the metric if
present (first occurrence), append it if absent, and revert to the default
list if the result would be empty. -/
def toggleList (current : List String) (metric : String) : List String :=
  let c := if metric ∈ current then current.erase metric else current ++ [metric]
  if c = [] then DEFAULT_DISPLAY else c

/-- toggle_display: toggle a metric in the enabled list and save it. -/
def toggle_display (fs : FileState) (metric : String) : Except String FileState :=
  save_config fs "display" (JVal.list ((toggleList (get_display fs) metric).map JVal.str))

/-- Extract the string elements of a stored JSON value (used to state what
a written display list holds). -/
def strOfJVal : JVal → Option String
  | JVal.str s => some s
  | _ => none

/-- The display list a settings file state physically stores, when it
stores one made of strings. -/
def persistedDisplay (fs : FileState) : Option (List String) :=
  match fs with
  | .parsed doc =>
      match lookupKey doc "display" with
      | some (JVal.list xs) => some (xs.filterMap strOfJVal)
      | _ => none
  | _ => none

-- ---------------------------------------------------------------------
-- Render pipeline data model
-- ---------------------------------------------------------------------

structure BurnRate where
  tokensPerMinute : ℚ
  costPerHour : ℚ

structure Projection where
  remainingMinutes : ℚ

structure LimitMsg where
  ltype : String
  resetTime : Option String

/-- One accounting block of the analyzer snapshot, with the fields the
script reads (absent dict keys already replaced by the defaults the
script's .get calls supply; falsy burnRate and projection are none). -/
structure Block where
  isActive : Bool
  totalTokens : Int
  costUSD : ℚ
  sentMessagesCount : Int
  durationMinutes : ℚ
  burnRate : Option BurnRate
  projection : Option Projection
  endTime : Option String
  perModelStats : List (String × JVal)
  limitMessages : List LimitMsg

structure AnalysisResult where
  blocks : List Block

/-- The environment of one invocation: importability of the library, the
analyzer call (which may raise), the CCM_PLAN variable, the two settings
files, the script path, the three plan-limit calls of the library (which
may raise), and the datetime formatting of the host (ETA instant from
remaining minutes; ISO parse plus local formatting, none on parse error). -/
structure Env where
  importOk : Bool
  analyzeUsage : Except String AnalysisResult
  ccmPlan : String
  config : FileState
  legacy : FileState
  scriptPath : String
  getTokenLimit : String → List Block → Except String Int
  getCostLimit : String → Except String ℚ
  getMsgLimit : String → Except String Int
  etaTimeStr : ℚ → String
  parseIsoFmt : String → Option String

/-- print_error: gray title, separator, red title line, dim message line. -/
def print_error_lines (title message : String) : List String :=
  ["CCM — | color=" ++ COLOR_GRAY ++ " font=" ++ TITLE_FONT ++ " size="
     ++ toString TITLE_SIZE ++ " offset=" ++ toString TITLE_OFFSET,
   "---",
   title ++ " | color=" ++ COLOR_RED ++ " font=" ++ MONO_FONT ++ " size=" ++ toString BODY_SIZE,
   message ++ " | color=" ++ COLOR_DIM ++ " font=" ++ MONO_FONT ++ " size=" ++ toString SMALL_SIZE]

def noLibraryLines : List String :=
  print_error_lines "claude-monitor not installed" "Install: pip install claude-monitor"
  ++ ["---",
      "Install claude-monitor | font=" ++ MONO_FONT ++ " size=" ++ toString BODY_SIZE
        ++ " bash=\x27pip\x27 param1=\x27install\x27 param2=\x27claude-monitor\x27 terminal=true"]

def idleLines : List String :=
  ["CCM  Idle | color=" ++ COLOR_GRAY ++ " font=" ++ TITLE_FONT ++ " size="
     ++ toString TITLE_SIZE ++ " offset=" ++ toString TITLE_OFFSET,
   "---",
   "No usage data found | color=" ++ COLOR_DIM ++ " font=" ++ MONO_FONT ++ " size=" ++ toString BODY_SIZE,
   "Start a Claude Code session to see metrics | color=" ++ COLOR_DIM ++ " font="
     ++ MONO_FONT ++ " size=" ++ toString SMALL_SIZE]

def footerLines : List String :=
  ["Open Terminal Monitor | font=" ++ MONO_FONT ++ " size=" ++ toString BODY_SIZE
     ++ " bash=ccm terminal=true",
   "Refresh | font=" ++ MONO_FONT ++ " size=" ++ toString BODY_SIZE ++ " refresh=true"]

/-- The NoActiveBlock render: a static summary of the last block. -/
def lastSessionLines (last : Block) : List String :=
  ["CCM  Idle | color=" ++ COLOR_GRAY ++ " font=" ++ TITLE_FONT ++ " size="
     ++ toString TITLE_SIZE ++ " offset=" ++ toString TITLE_OFFSET,
   "---",
   "Last Session | color=" ++ COLOR_WHITE ++ " font=" ++ MONO_FONT ++ " size=" ++ toString BODY_SIZE,
   "  TKN  " ++ padLeft (fmt_number last.totalTokens) 10 ++ "     MSG  "
     ++ toString last.sentMessagesCount ++ " | font=" ++ MONO_FONT ++ " size="
     ++ toString SMALL_SIZE ++ " color=" ++ COLOR_DIM,
   "  CST  " ++ padLeft (fmt_cost last.costUSD) 10 ++ "     DUR  "
     ++ fmt_duration last.durationMinutes ++ " | font=" ++ MONO_FONT ++ " size="
     ++ toString SMALL_SIZE ++ " color=" ++ COLOR_DIM,
   "---"] ++ footerLines

/-- Plan label with upper-cased fallback. -/
def planLabel (p : String) : String := ((PLAN_LABELS.lookup p).getD p.toUpper)

def plan_submenu_lines (script : String) (current_plan : String) : List String :=
  ("Plan: " ++ planLabel current_plan ++ " | color=" ++ COLOR_WHITE ++ " font="
     ++ MONO_FONT ++ " size=" ++ toString BODY_SIZE) ::
  VALID_PLANS.map (fun plan_key =>
    let lbl := (PLAN_LABELS.lookup plan_key).getD ""
    let check := if plan_key = current_plan then "✓ " else "   "
    "--" ++ check ++ lbl ++ " | font=" ++ MONO_FONT ++ " size=" ++ toString SMALL_SIZE
      ++ " bash=" ++ script ++ " param1=--set-plan param2=" ++ plan_key
      ++ " terminal=false refresh=true")

def display_submenu_lines (script : String) (current_display : List String) : List String :=
  ("Display | color=" ++ COLOR_WHITE ++ " font=" ++ MONO_FONT ++ " size=" ++ toString BODY_SIZE) ::
  DISPLAY_METRICS.map (fun kv =>
    let check := if current_display.contains kv.1 then "✓ " else "   "
    "--" ++ check ++ kv.2 ++ " | font=" ++ MONO_FONT ++ " size=" ++ toString SMALL_SIZE
      ++ " bash=" ++ script ++ " param1=--toggle-display param2=" ++ kv.1
      ++ " terminal=false refresh=true")

/-- format_title: label-value pairs of the enabled metrics, two-space
separated, the constant CCM when nothing is enabled. -/
def format_title (display : List String) (token_pct cost_pct msg_pct : ℚ)
    (cost : ℚ) (messages : Int) (msg_limit : Int) : String :=
  let parts := display.filterMap (fun key =>
    if key = "token_pct" then some ("TKN " ++ fmtFixed token_pct 0 ++ "%")
    else if key = "cost" then some ("CST " ++ fmt_cost cost)
    else if key = "cost_pct" then some ("CST " ++ fmtFixed cost_pct 0 ++ "%")
    else if key = "msg" then some ("MSG " ++ toString messages ++ "/" ++ toString msg_limit)
    else if key = "msg_pct" then some ("MSG " ++ fmtFixed msg_pct 0 ++ "%")
    else none)
  if parts = [] then "CCM" else String.intercalate "  " parts

/-- The sort key over perModelStats entries. -/
def statTokens (v : JVal) : ℚ :=
  match v with
  | JVal.obj kvs =>
      match lookupKey kvs "totalTokens" with
      | some (JVal.num q) => q
      | _ => 0
  | _ => 0

/-- Stable insertion for a descending sort (matches a stable library sort
with reverse set: equal keys keep their original order). -/
def insertByDesc (x : String × JVal) :
    List (String × JVal) → List (String × JVal)
  | [] => [x]
  | y :: ys => if statTokens y.2 ≤ statTokens x.2 then x :: y :: ys else y :: insertByDesc x ys

def sortByDesc : List (String × JVal) → List (String × JVal)
  | [] => []
  | x :: xs => insertByDesc x (sortByDesc xs)

def burnProjLines (env : Env) (block : Block) : List String :=
  (if block.burnRate.isSome || block.projection.isSome then ["---"] else [])
  ++ (match block.burnRate with
      | some br =>
          ["Burn  " ++ fmtFixed br.tokensPerMinute 0 ++ " tok/min  "
             ++ fmt_cost (if br.costPerHour ≠ 0 then br.costPerHour / 60 else 0)
             ++ "/min | color=" ++ COLOR_LABEL ++ " font=" ++ MONO_FONT ++ " size="
             ++ toString SMALL_SIZE]
      | none => [])
  ++ (match block.projection with
      | some p =>
          if 0 < p.remainingMinutes then
            ["ETA   " ++ fmt_duration p.remainingMinutes ++ " left → "
               ++ env.etaTimeStr p.remainingMinutes ++ " | color=" ++ COLOR_LABEL
               ++ " font=" ++ MONO_FONT ++ " size=" ++ toString SMALL_SIZE]
          else []
      | none => [])

def resetLines (env : Env) (block : Block) : List String :=
  match block.endTime with
  | some s =>
      if s = "" then []
      else
        match env.parseIsoFmt s with
        | some t => ["Reset " ++ t ++ " | color=" ++ COLOR_LABEL ++ " font=" ++ MONO_FONT
                       ++ " size=" ++ toString SMALL_SIZE]
        | none => []
  | none => []

def modelLines (block : Block) (tokens : Int) : List String :=
  match block.perModelStats with
  | [] => []
  | pm =>
      if 0 < tokens then
        ["---", "Models | color=" ++ COLOR_WHITE ++ " font=" ++ MONO_FONT ++ " size="
           ++ toString BODY_SIZE]
        ++ (sortByDesc pm).filterMap (fun nv =>
            match nv.2 with
            | JVal.obj kvs =>
                let mt : ℚ :=
                  match lookupKey kvs "totalTokens" with
                  | some (JVal.num q) => q
                  | _ => 0
                let pct : ℚ := if 0 < tokens then mt / (tokens : ℚ) * 100 else 0
                let shortName := if 22 < nv.1.length then nv.1.take 22 ++ "…" else nv.1
                let mcolor := if 50 < pct then get_color pct else COLOR_DIM
                some ("  " ++ padRight shortName 24 ++ " " ++ padLeft (fmtFixed pct 0) 3
                        ++ "% | color=" ++ mcolor ++ " font=" ++ MONO_FONT ++ " size="
                        ++ toString SMALL_SIZE)
            | _ => none)
      else []

def limitLines (env : Env) (block : Block) : List String :=
  match block.limitMessages with
  | [] => []
  | lms =>
      ["---", "⚠ Limit Reached | color=" ++ COLOR_RED ++ " font=" ++ MONO_FONT
         ++ " size=" ++ toString BODY_SIZE]
      ++ (lms.take 3).map (fun lm =>
          let base := "  " ++ lm.ltype
          let withReset :=
            match lm.resetTime with
            | some r =>
                if r = "" then base
                else
                  match env.parseIsoFmt r with
                  | some t => base ++ " → resets " ++ t
                  | none => base
            | none => base
          withReset ++ " | font=" ++ MONO_FONT ++ " size=" ++ toString SMALL_SIZE
            ++ " color=" ++ COLOR_RED)

/-- The ActiveBlock dashboard, after the three limits were acquired. -/
def activeLines (env : Env) (plan : String) (token_limit : Int) (cost_limit : ℚ)
    (msg_limit : Int) (block : Block) : List String :=
  let tokens := block.totalTokens
  let cost := block.costUSD
  let messages := block.sentMessagesCount
  let duration := block.durationMinutes
  let token_pct : ℚ := if 0 < token_limit then (tokens : ℚ) / (token_limit : ℚ) * 100 else 0
  let cost_pct : ℚ := if 0 < cost_limit then cost / cost_limit * 100 else 0
  let msg_pct : ℚ := if 0 < msg_limit then (messages : ℚ) / (msg_limit : ℚ) * 100 else 0
  let max_pct := max token_pct (max cost_pct msg_pct)
  let color := get_color max_pct
  let display := get_display env.config
  let title := format_title display token_pct cost_pct msg_pct cost messages msg_limit
  [title ++ " | color=" ++ color ++ " font=" ++ TITLE_FONT ++ " size=" ++ toString TITLE_SIZE
     ++ " offset=" ++ toString TITLE_OFFSET,
   "---"]
  ++ plan_submenu_lines env.scriptPath plan
  ++ display_submenu_lines env.scriptPath display
  ++ ["---"]
  ++ ["Tokens | color=" ++ COLOR_WHITE ++ " font=" ++ MONO_FONT ++ " size=" ++ toString BODY_SIZE,
      "  " ++ bar_graph token_pct 16 ++ "  " ++ fmtFixed token_pct 1 ++ "% | color="
        ++ get_color token_pct ++ " font=" ++ MONO_FONT ++ " size=" ++ toString SMALL_SIZE,
      "  " ++ fmt_number tokens ++ " / " ++ fmt_number token_limit ++ " | color=" ++ COLOR_DIM
        ++ " font=" ++ MONO_FONT ++ " size=" ++ toString SMALL_SIZE,
      "Cost | color=" ++ COLOR_WHITE ++ " font=" ++ MONO_FONT ++ " size=" ++ toString BODY_SIZE,
      "  " ++ bar_graph cost_pct 16 ++ "  " ++ fmtFixed cost_pct 1 ++ "% | color="
        ++ get_color cost_pct ++ " font=" ++ MONO_FONT ++ " size=" ++ toString SMALL_SIZE,
      "  " ++ fmt_cost cost ++ " / " ++ fmt_cost cost_limit ++ " | color=" ++ COLOR_DIM
        ++ " font=" ++ MONO_FONT ++ " size=" ++ toString SMALL_SIZE,
      "Messages | color=" ++ COLOR_WHITE ++ " font=" ++ MONO_FONT ++ " size=" ++ toString BODY_SIZE,
      "  " ++ bar_graph msg_pct 16 ++ "  " ++ fmtFixed msg_pct 1 ++ "% | color="
        ++ get_color msg_pct ++ " font=" ++ MONO_FONT ++ " size=" ++ toString SMALL_SIZE,
      "  " ++ fmt_number messages ++ " / " ++ fmt_number msg_limit ++ " | color=" ++ COLOR_DIM
        ++ " font=" ++ MONO_FONT ++ " size=" ++ toString SMALL_SIZE,
      "Duration | color=" ++ COLOR_WHITE ++ " font=" ++ MONO_FONT ++ " size=" ++ toString BODY_SIZE,
      "  " ++ fmt_duration duration ++ " | color=" ++ COLOR_DIM ++ " font=" ++ MONO_FONT
        ++ " size=" ++ toString SMALL_SIZE]
  ++ burnProjLines env block
  ++ resetLines env block
  ++ modelLines block tokens
  ++ limitLines env block
  ++ ["---"] ++ footerLines

/-- The ActiveBlock branch of main: resolve the plan, then acquire the
three limits from the library; these three calls are not guarded, so an
exception there escapes. -/
def renderActive (env : Env) (blocks : List Block) (block : Block) :
    Except String (List String) :=
  let plan := get_plan env.ccmPlan env.config env.legacy
  match env.getTokenLimit plan blocks with
  | .error e => .error e
  | .ok token_limit =>
      match env.getCostLimit plan with
      | .error e => .error e
      | .ok cost_limit =>
          match env.getMsgLimit plan with
          | .error e => .error e
          | .ok msg_limit => .ok (activeLines env plan token_limit cost_limit msg_limit block)

/-- main: the top-level render, returning the printed lines, or the text
of an exception that escaped it. -/
def main (env : Env) : Except String (List String) :=
  if env.importOk then
    match env.analyzeUsage with
    | .error e => .ok (print_error_lines "Error loading data" (e.take 80))
    | .ok result =>
        match result.blocks with
        | [] => .ok idleLines
        | b0 :: bs =>
            match (b0 :: bs).filter (fun b => b.isActive) with
            | [] => .ok (lastSessionLines ((b0 :: bs).getLast (List.cons_ne_nil b0 bs)))
            | block :: _ => renderActive env (b0 :: bs) block
  else .ok noLibraryLines

/-- Outcome of one process invocation: the final config file state, the
printed lines, and the exit code. -/
structure DispatchResult where
  finalConfig : FileState
  outLines : List String
  exitCode : Nat

/-- The if name equals main dispatch: with at least three argv entries,
the set-plan and toggle-display commands mutate the settings and exit 0
without rendering; anything else renders. An escaped exception is an
error result (the interpreter then exits nonzero). -/
def script_dispatch (argv : List String) (env : Env) : Except String DispatchResult :=
  match argv with
  | _ :: a1 :: a2 :: _ =>
      if a1 = "--set-plan" then
        let chosen := pyLowerStrip a2
        if VALID_PLANS.contains chosen then
          match set_plan env.config chosen with
          | .ok cfg => .ok ⟨cfg, [], 0⟩
          | .error e => .error e
        else .ok ⟨env.config, [], 0⟩
      else if a1 = "--toggle-display" then
        let chosen := pyLowerStrip a2
        if valid_keys.contains chosen then
          match toggle_display env.config chosen with
          | .ok cfg => .ok ⟨cfg, [], 0⟩
          | .error e => .error e
        else .ok ⟨env.config, [], 0⟩
      else
        match main env with
        | .ok lines => .ok ⟨env.config, lines, 0⟩
        | .error e => .error e
  | _ =>
      match main env with
      | .ok lines => .ok ⟨env.config, lines, 0⟩
      | .error e => .error e

-- ---------------------------------------------------------------------
-- Concrete environments used to evaluate the model at specific inputs
-- ---------------------------------------------------------------------

/-- An active block with tokens 50000 and cost 5 dollars. -/
def blockBoom : Block :=
  { isActive := true, totalTokens := 50000, costUSD := 5, sentMessagesCount := 100,
    durationMinutes := 30, burnRate := none, projection := none, endTime := none,
    perModelStats := [], limitMessages := [] }

/-- An environment in which the token-limit call of the library raises. -/
def envBoom : Env :=
  { importOk := true, analyzeUsage := .ok ⟨[blockBoom]⟩, ccmPlan := "", config := .missing,
    legacy := .missing, scriptPath := "/p", getTokenLimit := fun _ _ => .error "boom",
    getCostLimit := fun _ => .ok 10, getMsgLimit := fun _ => .ok 250,
    etaTimeStr := fun _ => "", parseIsoFmt := fun _ => none }

/-- An environment whose settings file parses to a JSON array. -/
def envNonObject : Env :=
  { envBoom with config := .invalidDoc (JVal.list [JVal.num 1]),
                 getTokenLimit := fun _ _ => .ok 100000 }

/-- An environment in which every library call returns normally. -/
def envOkay : Env :=
  { envBoom with getTokenLimit := fun _ _ => .ok 100000 }

/-- An active block for the block-selection checks. -/
def blockSel : Block :=
  { isActive := true, totalTokens := 7, costUSD := 1, sentMessagesCount := 2,
    durationMinutes := 5, burnRate := none, projection := none, endTime := none,
    perModelStats := [], limitMessages := [] }

/-- An inactive block for the block-selection checks. -/
def blockIdleSel : Block :=
  { blockSel with isActive := false }

/-- An environment returning one inactive and one active block. -/
def envSel : Env :=
  { importOk := true, analyzeUsage := .ok ⟨[blockIdleSel, blockSel]⟩, ccmPlan := "",
    config := .missing, legacy := .missing, scriptPath := "/p",
    getTokenLimit := fun _ _ => .ok 100, getCostLimit := fun _ => .ok 10,
    getMsgLimit := fun _ => .ok 250, etaTimeStr := fun _ => "",
    parseIsoFmt := fun _ => none }

/-- The block of the end-to-end title scenario. -/
def blockTitle : Block :=
  { isActive := true, totalTokens := 50000, costUSD := 5, sentMessagesCount := 100,
    durationMinutes := 42, burnRate := none, projection := none, endTime := none,
    perModelStats := [], limitMessages := [] }

/-- The environment of the end-to-end title scenario: one active block,
token limit 100000, cost limit 10 dollars, message limit 250. -/
def envTitle : Env :=
  { importOk := true, analyzeUsage := .ok ⟨[blockTitle]⟩, ccmPlan := "", config := .missing,
    legacy := .missing, scriptPath := "/p", getTokenLimit := fun _ _ => .ok 100000,
    getCostLimit := fun _ => .ok 10, getMsgLimit := fun _ => .ok 250,
    etaTimeStr := fun _ => "", parseIsoFmt := fun _ => none }


-- ---------------------------------------------------------------------
-- Helper lemmas and claim theorems
-- ---------------------------------------------------------------------

theorem strRepeat_length (c : Char) (n : Int) : (strRepeat c n).length = n.toNat := by
  simp [strRepeat, String.length]

theorem pyTrunc_eq_floor (q : ℚ) (h : 0 ≤ q) : pyTrunc q = ⌊q⌋ := by
  simp [pyTrunc, not_lt.mpr h]

theorem pyTrunc_mono (a b : ℚ) (h : a ≤ b) : pyTrunc a ≤ pyTrunc b := by
  unfold pyTrunc
  split_ifs with ha hb
  · exact Int.ceil_le_ceil h
  · have hc : ⌈a⌉ ≤ (0 : ℤ) := Int.ceil_le.mpr (by exact_mod_cast le_of_lt ha)
    exact hc.trans (Int.floor_nonneg.mpr (not_lt.mp hb))
  · next hb => exact absurd (lt_of_le_of_lt h hb) (not_lt.mpr (not_lt.mp ha))
  · exact Int.floor_le_floor h

/-- C5: for every pct, get_color returns exactly one of the four colors,
selected by thresholds with inclusive lower bounds: red for 95 and above,
orange on [80, 95), yellow on [50, 80), green below 50; the boundary
values 50, 80 and 95 map to the higher tier. -/
theorem get_color_spec (pct : ℚ) :
    (get_color pct = COLOR_RED ↔ 95 ≤ pct)
  ∧ (get_color pct = COLOR_ORANGE ↔ 80 ≤ pct ∧ pct < 95)
  ∧ (get_color pct = COLOR_YELLOW ↔ 50 ≤ pct ∧ pct < 80)
  ∧ (get_color pct = COLOR_GREEN ↔ pct < 50)
  ∧ (get_color pct = COLOR_RED ∨ get_color pct = COLOR_ORANGE
       ∨ get_color pct = COLOR_YELLOW ∨ get_color pct = COLOR_GREEN) := by
  unfold get_color
  split_ifs with h1 h2 h3 <;>
  refine ⟨?_, ?_, ?_, ?_, ?_⟩ <;>
  first
    | exact Or.inl rfl
    | exact Or.inr (Or.inl rfl)
    | exact Or.inr (Or.inr (Or.inl rfl))
    | exact Or.inr (Or.inr (Or.inr rfl))
    | exact iff_of_true rfl (by constructor <;> linarith)
    | exact iff_of_true rfl (by linarith)
    | exact iff_of_false (by decide) (by rintro ⟨u, v⟩; linarith)
    | exact iff_of_false (by decide) (by intro hh; linarith)

/-- Witness for C5 at the boundary inputs 80 and 95. -/
theorem get_color_spec_witness :
    get_color 80 = COLOR_ORANGE ∧ get_color 95 = COLOR_RED :=
  ⟨(get_color_spec 80).2.1.mpr (by norm_num), (get_color_spec 95).1.mpr (by norm_num)⟩

theorem strRepeat_zero (c : Char) : strRepeat c 0 = "" := rfl

/-- C4 counterexample: at pct = -200 and width = 10 the bar is 30
characters long, not 10, because int() of the negative product is kept by
the min and the light-glyph run is repeated width - filled times. -/
theorem bar_graph_negative_cex : (bar_graph (-200) 10).length ≠ 10 := by
  have e : pyTrunc ((-200 : ℚ) / 100 * ((10 : Int) : ℚ)) = -20 := by
    have h1 : (-200 : ℚ) / 100 * ((10 : Int) : ℚ) = ((-20 : Int) : ℚ) := by norm_num
    rw [h1, pyTrunc, if_pos (by norm_num), Int.ceil_intCast]
  have emin : min (-20 : Int) 10 = -20 := min_eq_left (by norm_num)
  simp only [bar_graph, e, emin, String.length_append, strRepeat_length]
  decide

/-- C4 amended: for every pct at least 0 and width at least 0, bar_graph
returns a string of exactly width characters, the first
min(floor(pct / 100 * width), width) of them the filled glyph and the
remainder the alternate glyph; bar_graph 100 10 is fully filled,
bar_graph 0 10 is fully empty, and the filled count is monotone
non-decreasing in pct. -/
theorem bar_graph_spec (pct q2 : ℚ) (width : Int) (hp : 0 ≤ pct) (hw : 0 ≤ width) :
    (bar_graph pct width).length = width.toNat
  ∧ bar_graph pct width =
      strRepeat glyphFull (min ⌊pct / 100 * (width : ℚ)⌋ width)
        ++ strRepeat glyphEmpty (width - min ⌊pct / 100 * (width : ℚ)⌋ width)
  ∧ bar_graph 100 10 = strRepeat glyphFull 10
  ∧ bar_graph 0 10 = strRepeat glyphEmpty 10
  ∧ (pct ≤ q2 →
      (min (pyTrunc (pct / 100 * (width : ℚ))) width).toNat
        ≤ (min (pyTrunc (q2 / 100 * (width : ℚ))) width).toNat) := by
  have hwq : (0 : ℚ) ≤ (width : ℚ) := by exact_mod_cast hw
  have hq : 0 ≤ pct / 100 * (width : ℚ) :=
    mul_nonneg (div_nonneg hp (by norm_num)) hwq
  have htr : pyTrunc (pct / 100 * (width : ℚ)) = ⌊pct / 100 * (width : ℚ)⌋ :=
    pyTrunc_eq_floor _ hq
  have hfl : 0 ≤ ⌊pct / 100 * (width : ℚ)⌋ := Int.floor_nonneg.mpr hq
  have e100 : pyTrunc ((100 : ℚ) / 100 * ((10 : Int) : ℚ)) = 10 := by
    have h1 : (100 : ℚ) / 100 * ((10 : Int) : ℚ) = ((10 : Int) : ℚ) := by norm_num
    rw [h1, pyTrunc, if_neg (by norm_num), Int.floor_intCast]
  have e0 : pyTrunc ((0 : ℚ) / 100 * ((10 : Int) : ℚ)) = 0 := by
    have h1 : (0 : ℚ) / 100 * ((10 : Int) : ℚ) = ((0 : Int) : ℚ) := by norm_num
    rw [h1, pyTrunc, if_neg (by norm_num), Int.floor_intCast]
  refine ⟨?_, ?_, ?_, ?_, ?_⟩
  · show (strRepeat glyphFull _ ++ strRepeat glyphEmpty _).length = _
    rw [String.length_append, strRepeat_length, strRepeat_length, htr]
    have h1 : 0 ≤ min ⌊pct / 100 * (width : ℚ)⌋ width := le_min hfl hw
    have h2 : min ⌊pct / 100 * (width : ℚ)⌋ width ≤ width := min_le_right _ _
    omega
  · show (strRepeat glyphFull _ ++ strRepeat glyphEmpty _) = _
    rw [htr]
  · have hm : min (10 : Int) 10 = 10 := min_self 10
    simp only [bar_graph, e100, hm, sub_self, strRepeat_zero]
    exact String.append_empty _
  · have hm : min (0 : Int) 10 = 0 := min_eq_left (by norm_num)
    simp only [bar_graph, e0, hm, strRepeat_zero, sub_zero]
    rfl
  · intro hle
    have hmono : pyTrunc (pct / 100 * (width : ℚ)) ≤ pyTrunc (q2 / 100 * (width : ℚ)) := by
      apply pyTrunc_mono
      gcongr
    exact Int.toNat_le_toNat (min_le_min hmono le_rfl)

/-- Witness for C4 at pct = 37 against 50 and width = 10. -/
theorem bar_graph_spec_witness :
    (bar_graph 37 10).length = (10 : Int).toNat
  ∧ (min (pyTrunc ((37 : ℚ) / 100 * ((10 : Int) : ℚ))) 10).toNat
      ≤ (min (pyTrunc ((50 : ℚ) / 100 * ((10 : Int) : ℚ))) 10).toNat :=
  ⟨(bar_graph_spec 37 50 10 (by norm_num) (by norm_num)).1,
   (bar_graph_spec 37 50 10 (by norm_num) (by norm_num)).2.2.2.2 (by norm_num)⟩

/-- C8: for every v and total, fmt_pct returns the constant string 0.0%
whenever the total is non-positive, never reaching the division, and for
positive total it formats v / total * 100 with one decimal and a percent
sign. -/
theorem fmt_pct_spec (v total : ℚ) :
    (total ≤ 0 → fmt_pct v total = "0.0%")
  ∧ (0 < total → fmt_pct v total = fmtFixed (v / total * 100) 1 ++ "%") := by
  constructor
  · intro h; simp [fmt_pct, h]
  · intro h; simp [fmt_pct, not_le.mpr h]

/-- Witness for C8 at total = 0 (two values of v) and total = 3. -/
theorem fmt_pct_spec_witness :
    fmt_pct 123 0 = "0.0%" ∧ fmt_pct (-7) 0 = "0.0%"
  ∧ fmt_pct 1 3 = fmtFixed ((1 : ℚ) / 3 * 100) 1 ++ "%" :=
  ⟨(fmt_pct_spec 123 0).1 le_rfl, (fmt_pct_spec (-7) 0).1 le_rfl,
   (fmt_pct_spec 1 3).2 (by norm_num)⟩

theorem lookupKey_setKey_self (doc : List (String × JVal)) (k : String) (v : JVal) :
    lookupKey (setKey doc k v) k = some v := by
  induction doc with
  | nil => simp [setKey, lookupKey]
  | cons hd t ih =>
      obtain ⟨k0, v0⟩ := hd
      by_cases hk : k0 = k
      · simp [setKey, hk, lookupKey]
      · simp [setKey, hk, lookupKey, ih]

theorem lookupKey_setKey_ne (doc : List (String × JVal)) (k q : String) (v : JVal)
    (h : q ≠ k) : lookupKey (setKey doc k v) q = lookupKey doc q := by
  have hk : k ≠ q := Ne.symm h
  induction doc with
  | nil => simp [setKey, lookupKey, hk]
  | cons hd t ih =>
      obtain ⟨k0, v0⟩ := hd
      by_cases h0 : k0 = k
      · subst h0
        simp [setKey, lookupKey, hk]
      · simp [setKey, h0, lookupKey, ih]

/-- C9: settings persistence is read-merge-write with a frame property:
writing one key of a parsed document leaves every other key bound to its
prior value and binds the saved key; a missing or unparseable prior file
is treated as empty and the written document holds only the saved key. -/
theorem save_config_frame (doc : List (String × JVal)) (k q : String) (v : JVal) :
    save_config (.parsed doc) k v = .ok (.parsed (setKey doc k v))
  ∧ (q ≠ k → lookupKey (setKey doc k v) q = lookupKey doc q)
  ∧ lookupKey (setKey doc k v) k = some v
  ∧ save_config .missing k v = .ok (.parsed [(k, v)])
  ∧ save_config .corrupt k v = .ok (.parsed [(k, v)]) :=
  ⟨rfl, lookupKey_setKey_ne doc k q v, lookupKey_setKey_self doc k v, rfl, rfl⟩

/-- Witness for C9: saving the display key leaves the plan key of a
two-key document untouched. -/
theorem save_config_frame_witness :
    lookupKey (setKey [("plan", JVal.str "pro"), ("x", JVal.num 3)] "display"
        (JVal.list [JVal.str "cost"])) "plan"
      = lookupKey [("plan", JVal.str "pro"), ("x", JVal.num 3)] "plan" :=
  (save_config_frame [("plan", JVal.str "pro"), ("x", JVal.num 3)] "display" "plan"
      (JVal.list [JVal.str "cost"])).2.1 (by decide)

theorem filterValid_mem (xs : List JVal) (l : List String) (h : filterValid xs = some l) :
    ∀ x ∈ l, x ∈ valid_keys := by
  induction xs generalizing l with
  | nil =>
      simp [filterValid] at h
      subst h; simp
  | cons a rest ih =>
      cases a with
      | str s =>
          simp only [filterValid, Option.map_eq_some'] at h
          obtain ⟨r, hr, hmap⟩ := h
          by_cases hv : s ∈ valid_keys
          · rw [if_pos hv] at hmap
            subst hmap
            intro x hx
            rcases List.mem_cons.mp hx with rfl | hx2
            · exact hv
            · exact ih r hr x hx2
          · rw [if_neg hv] at hmap
            subst hmap
            exact ih r hr
      | list ys => simp [filterValid] at h
      | obj kvs => simp [filterValid] at h
      | null => exact ih l h
      | bool b => exact ih l h
      | num q => exact ih l h

theorem filterValid_map_str (l : List String) :
    filterValid (l.map JVal.str) = some (l.filter (fun s => s ∈ valid_keys)) := by
  induction l with
  | nil => simp [filterValid]
  | cons s t ih =>
      by_cases hv : s ∈ valid_keys <;>
        simp [filterValid, ih, hv, List.filter_cons]

theorem get_display_cases (fs : FileState) :
    get_display fs = DEFAULT_DISPLAY ∨
      ∃ doc xs l, fs = .parsed doc ∧ lookupKey doc "display" = some (JVal.list xs)
        ∧ filterValid xs = some l ∧ l ≠ [] ∧ get_display fs = l := by
  cases fs with
  | missing => exact Or.inl rfl
  | corrupt => exact Or.inl rfl
  | invalidDoc v => exact Or.inl rfl
  | parsed doc =>
      cases hl : lookupKey doc "display" with
      | none => left; simp [get_display, hl]
      | some v =>
          cases v with
          | list xs =>
              cases hf : filterValid xs with
              | none => left; simp [get_display, hl, hf]
              | some l =>
                  cases l with
                  | nil => left; simp [get_display, hl, hf]
                  | cons d ds =>
                      right
                      exact ⟨doc, xs, d :: ds, rfl, hl, hf, by simp, by simp [get_display, hl, hf]⟩
          | null => left; simp [get_display, hl]
          | bool b => left; simp [get_display, hl]
          | num q => left; simp [get_display, hl]
          | str s => left; simp [get_display, hl]
          | obj kvs => left; simp [get_display, hl]

theorem get_display_parsed (doc : List (String × JVal)) (S : List String)
    (h : lookupKey doc "display" = some (JVal.list (S.map JVal.str)))
    (hv : ∀ x ∈ S, x ∈ valid_keys) (hne : S ≠ []) :
    get_display (.parsed doc) = S := by
  have hf : S.filter (fun s => s ∈ valid_keys) = S := by
    rw [List.filter_eq_self]
    intro a ha
    simpa using hv a ha
  cases S with
  | nil => exact absurd rfl hne
  | cons d ds =>
      have hfv := filterValid_map_str (d :: ds)
      rw [List.map_cons] at hfv
      simp [get_display, h, hfv, hf]

theorem get_display_ne_nil (fs : FileState) : get_display fs ≠ [] := by
  rcases get_display_cases fs with h | ⟨doc, xs, l, -, -, -, hne, h⟩
  · rw [h]; simp [DEFAULT_DISPLAY]
  · rw [h]; exact hne

theorem get_display_valid (fs : FileState) : ∀ x ∈ get_display fs, x ∈ valid_keys := by
  rcases get_display_cases fs with h | ⟨doc, xs, l, -, -, hf, -, h⟩
  · rw [h]; decide
  · rw [h]; exact filterValid_mem xs l hf

/-- C2: get_display never returns an empty list: for every settings file
state the result is non-empty and holds only recognized identifiers, and
it is the default ordered list whenever the file is missing or corrupt or
the stored display value filters down to the empty list. -/
theorem get_display_spec (fs : FileState) :
    get_display fs ≠ []
  ∧ (∀ x ∈ get_display fs, x ∈ valid_keys)
  ∧ (fs = .missing ∨ fs = .corrupt → get_display fs = DEFAULT_DISPLAY)
  ∧ (∀ doc xs, fs = .parsed doc → lookupKey doc "display" = some (JVal.list xs) →
       filterValid xs = some [] → get_display fs = DEFAULT_DISPLAY) := by
  refine ⟨get_display_ne_nil fs, get_display_valid fs, ?_, ?_⟩
  · rintro (rfl | rfl) <;> rfl
  · rintro doc xs rfl hl hf
    simp [get_display, hl, hf]

/-- Witness for C2 on a file storing display ["bogus"] and one storing
display []. -/
theorem get_display_spec_witness :
    get_display (.parsed [("display", JVal.list [JVal.str "bogus"])]) ≠ []
  ∧ get_display (.parsed [("display", JVal.list [JVal.str "bogus"])]) = DEFAULT_DISPLAY
  ∧ get_display (.parsed [("display", JVal.list [])]) = DEFAULT_DISPLAY :=
  ⟨(get_display_spec (.parsed [("display", JVal.list [JVal.str "bogus"])])).1,
   (get_display_spec (.parsed [("display", JVal.list [JVal.str "bogus"])])).2.2.2
      [("display", JVal.list [JVal.str "bogus"])] [JVal.str "bogus"] rfl rfl (by rfl),
   (get_display_spec (.parsed [("display", JVal.list [])])).2.2.2
      [("display", JVal.list [])] [] rfl rfl (by rfl)⟩

theorem save_config_total (fs : FileState) (k : String) (v : JVal)
    (hok : ∀ w, fs ≠ FileState.invalidDoc w) :
    save_config fs k v = .ok (.parsed (setKey (configDoc fs) k v)) := by
  cases fs with
  | invalidDoc w => exact absurd rfl (hok w)
  | missing => rfl
  | corrupt => rfl
  | parsed d => rfl

theorem toggle_display_ok (fs : FileState) (m : String) (hok : ∀ w, fs ≠ FileState.invalidDoc w) :
    toggle_display fs m
      = .ok (.parsed (setKey (configDoc fs) "display"
          (JVal.list ((toggleList (get_display fs) m).map JVal.str)))) :=
  save_config_total fs "display" _ hok

theorem toggleList_not_mem (S : List String) (m : String) (hm : m ∉ S) :
    toggleList S m = S ++ [m] := by
  simp only [toggleList]
  rw [if_neg hm, if_neg (by simp : ¬(S ++ [m] = []))]

theorem toggleList_mem_ne (S : List String) (m : String) (hm : m ∈ S)
    (hne : S.erase m ≠ []) : toggleList S m = S.erase m := by
  simp only [toggleList]
  rw [if_pos hm, if_neg hne]

theorem toggleList_mem_nil (S : List String) (m : String) (hm : m ∈ S)
    (hnil : S.erase m = []) : toggleList S m = DEFAULT_DISPLAY := by
  simp only [toggleList]
  rw [if_pos hm, hnil, if_pos rfl]

theorem toggleList_ne_nil (S : List String) (m : String) : toggleList S m ≠ [] := by
  by_cases hmem : m ∈ S
  · by_cases hnil : S.erase m = []
    · rw [toggleList_mem_nil S m hmem hnil]
      decide
    · rw [toggleList_mem_ne S m hmem hnil]
      exact hnil
  · rw [toggleList_not_mem S m hmem]
    simp

theorem toggleList_valid (S : List String) (m : String) (hm : m ∈ valid_keys)
    (hv : ∀ x ∈ S, x ∈ valid_keys) : ∀ x ∈ toggleList S m, x ∈ valid_keys := by
  by_cases hmem : m ∈ S
  · by_cases hnil : S.erase m = []
    · rw [toggleList_mem_nil S m hmem hnil]
      decide
    · rw [toggleList_mem_ne S m hmem hnil]
      intro x hx
      exact hv x (List.mem_of_mem_erase hx)
  · rw [toggleList_not_mem S m hmem]
    intro x hx
    rcases List.mem_append.mp hx with h | h
    · exact hv x h
    · rcases List.mem_singleton.mp h with rfl
      exact hm

theorem get_display_after_toggle (fs : FileState) (m : String) (hm : m ∈ valid_keys)
    (hok : ∀ w, fs ≠ FileState.invalidDoc w) (fs1 : FileState)
    (h1 : toggle_display fs m = .ok fs1) :
    get_display fs1 = toggleList (get_display fs) m := by
  rw [toggle_display_ok fs m hok] at h1
  cases h1
  exact get_display_parsed _ _ (lookupKey_setKey_self _ _ _)
    (toggleList_valid _ _ hm (get_display_valid fs)) (toggleList_ne_nil _ _)

theorem erase_ne_nil_of_two_le (S : List String) (m : String) (hlen : 2 ≤ S.length) :
    S.erase m ≠ [] := by
  intro hc
  have h := List.length_erase m S
  rw [hc] at h
  simp only [List.length_nil] at h
  split at h <;> omega

theorem erase_append_toFinset (S : List String) (m : String) (hm : m ∈ S) (hnd : S.Nodup) :
    (S.erase m ++ [m]).toFinset = S.toFinset := by
  ext x
  simp only [List.mem_toFinset, List.mem_append, List.mem_singleton, hnd.mem_erase_iff]
  constructor
  · rintro (⟨-, hx⟩ | rfl)
    · exact hx
    · exact hm
  · intro hx
    by_cases hxm : x = m
    · exact Or.inr hxm
    · exact Or.inl ⟨hxm, hx⟩

theorem toggleList_twice_mem (S : List String) (m : String) (hnd : S.Nodup) (hm : m ∈ S)
    (hne : S.erase m ≠ []) :
    toggleList (toggleList S m) m = S.erase m ++ [m] := by
  rw [toggleList_mem_ne S m hm hne]
  have hnm : m ∉ S.erase m := fun hc => ((hnd.mem_erase_iff).mp hc).1 rfl
  exact toggleList_not_mem _ _ hnm

theorem toggleList_twice_not_mem (S : List String) (m : String) (hne : S ≠ []) (hm : m ∉ S) :
    toggleList (toggleList S m) m = S := by
  rw [toggleList_not_mem S m hm]
  have hmem : m ∈ S ++ [m] := by simp
  have herase : (S ++ [m]).erase m = S := by
    rw [List.erase_append_right _ hm]
    simp
  rw [toggleList_mem_ne _ _ hmem (by rw [herase]; exact hne), herase]

theorem toggleList_single (m : String) : toggleList [m] m = DEFAULT_DISPLAY :=
  toggleList_mem_nil [m] m (by simp) (by simp)

theorem toggleList_twice_single_ne (m : String) :
    (toggleList (toggleList [m] m) m).toFinset ≠ ([m] : List String).toFinset := by
  rw [toggleList_single]
  by_cases hm : m ∈ DEFAULT_DISPLAY
  · have h2 : m = "token_pct" ∨ m = "cost" := by simpa [DEFAULT_DISPLAY] using hm
    rcases h2 with rfl | rfl <;> decide
  · rw [toggleList_not_mem _ _ hm]
    intro hEq
    have h3 : "token_pct" ∈ (DEFAULT_DISPLAY ++ [m]).toFinset := by simp [DEFAULT_DISPLAY]
    rw [hEq] at h3
    have h4 : "token_pct" = m := by simpa using h3
    exact hm (by simp [DEFAULT_DISPLAY, ← h4])

/-- C3: toggle_display is involutive on the enabled set: for every
settings file whose enabled set is duplicate-free (a set) and every
recognized metric, toggling twice restores the enabled set, except when
the enabled set is exactly the singleton of that metric, in which case the
first toggle reverts to the default list instead of emptying it and the
double toggle does not restore the set. -/
theorem toggle_display_involutive (fs : FileState) (m : String)
    (hm : m ∈ valid_keys) (hok : ∀ w, fs ≠ FileState.invalidDoc w)
    (hnd : (get_display fs).Nodup) :
    ∃ fs1 fs2, toggle_display fs m = .ok fs1 ∧ toggle_display fs1 m = .ok fs2
      ∧ (get_display fs ≠ [m] →
           (get_display fs2).toFinset = (get_display fs).toFinset)
      ∧ (get_display fs = [m] →
           get_display fs1 = DEFAULT_DISPLAY
         ∧ (get_display fs2).toFinset ≠ (get_display fs).toFinset) := by
  have h1 := toggle_display_ok fs m hok
  set fs1 := FileState.parsed (setKey (configDoc fs) "display"
      (JVal.list ((toggleList (get_display fs) m).map JVal.str))) with hfs1
  have hok1 : ∀ w, fs1 ≠ FileState.invalidDoc w := fun w h => by rw [hfs1] at h; cases h
  have h2 := toggle_display_ok fs1 m hok1
  have gd1 : get_display fs1 = toggleList (get_display fs) m :=
    get_display_after_toggle fs m hm hok fs1 h1
  set fs2 := FileState.parsed (setKey (configDoc fs1) "display"
      (JVal.list ((toggleList (get_display fs1) m).map JVal.str))) with hfs2
  have gd2 : get_display fs2 = toggleList (toggleList (get_display fs) m) m := by
    rw [get_display_after_toggle fs1 m hm hok1 fs2 h2, gd1]
  refine ⟨fs1, fs2, h1, h2, ?_, ?_⟩
  · intro hne
    rw [gd2]
    by_cases hmem : m ∈ get_display fs
    · have hlen : 2 ≤ (get_display fs).length := by
        rcases hgd : get_display fs with - | ⟨a, - | ⟨b, t⟩⟩
        · exact absurd hgd (get_display_ne_nil fs)
        · rw [hgd] at hmem
          rcases List.mem_singleton.mp hmem with rfl
          exact absurd hgd hne
        · simp
      rw [toggleList_twice_mem _ m hnd hmem (erase_ne_nil_of_two_le _ m hlen)]
      exact erase_append_toFinset _ m hmem hnd
    · rw [toggleList_twice_not_mem _ m (get_display_ne_nil fs) hmem]
  · intro hsingle
    constructor
    · rw [gd1, hsingle]
      exact toggleList_single m
    · rw [gd2, hsingle]
      exact toggleList_twice_single_ne m

/-- Witness for C3 on the missing settings file (default enabled set) and
the metric msg. -/
theorem toggle_display_involutive_witness :
    ∃ fs1 fs2, toggle_display .missing "msg" = .ok fs1 ∧ toggle_display fs1 "msg" = .ok fs2
      ∧ (get_display .missing ≠ ["msg"] →
           (get_display fs2).toFinset = (get_display .missing).toFinset)
      ∧ (get_display .missing = ["msg"] →
           get_display fs1 = DEFAULT_DISPLAY
         ∧ (get_display fs2).toFinset ≠ (get_display .missing).toFinset) :=
  toggle_display_involutive .missing "msg" (by decide) (fun w h => by cases h) (by decide)

theorem strOfJVal_map (l : List String) :
    List.filterMap (strOfJVal ∘ JVal.str) l = l := by
  induction l with
  | nil => rfl
  | cons a t ih =>
      simp only [List.filterMap_cons, Function.comp]
      simp [strOfJVal, ih]

theorem persistedDisplay_setKey (d : List (String × JVal)) (l : List String) :
    persistedDisplay (.parsed (setKey d "display" (JVal.list (l.map JVal.str)))) = some l := by
  simp [persistedDisplay, lookupKey_setKey_self, strOfJVal_map]

/-- C10 amended: for every stored display list of at least two distinct
recognized identifiers that contains the metric m, toggling m twice
persists the list with m removed from its original position and appended
at the end, so the restoration holds as a set but not as a list. -/
theorem toggle_display_order (doc : List (String × JVal)) (S : List String) (m : String)
    (hstore : lookupKey doc "display" = some (JVal.list (S.map JVal.str)))
    (hlen : 2 ≤ S.length) (hm : m ∈ S) (hmv : m ∈ valid_keys) (hnd : S.Nodup)
    (hv : ∀ x ∈ S, x ∈ valid_keys) :
    ∃ fs1 fs2, toggle_display (FileState.parsed doc) m = .ok fs1
      ∧ toggle_display fs1 m = .ok fs2
      ∧ persistedDisplay fs2 = some (S.erase m ++ [m])
      ∧ (S.erase m ++ [m]).toFinset = S.toFinset := by
  have hne : S ≠ [] := by
    intro hc
    rw [hc] at hlen
    simp at hlen
  have hgd : get_display (.parsed doc) = S := get_display_parsed doc S hstore hv hne
  have hok : ∀ w, FileState.parsed doc ≠ FileState.invalidDoc w := fun w h => by cases h
  have h1 := toggle_display_ok (.parsed doc) m hok
  set fs1 := FileState.parsed (setKey (configDoc (FileState.parsed doc)) "display"
      (JVal.list ((toggleList (get_display (FileState.parsed doc)) m).map JVal.str))) with hfs1
  have hok1 : ∀ w, fs1 ≠ FileState.invalidDoc w := fun w h => by rw [hfs1] at h; cases h
  have h2 := toggle_display_ok fs1 m hok1
  have gd1 : get_display fs1 = toggleList S m := by
    rw [get_display_after_toggle (FileState.parsed doc) m hmv hok fs1 h1, hgd]
  have herasene := erase_ne_nil_of_two_le S m hlen
  have ht1 : toggleList S m = S.erase m := toggleList_mem_ne S m hm herasene
  have hnm : m ∉ S.erase m := fun hc => ((hnd.mem_erase_iff).mp hc).1 rfl
  have ht2 : toggleList (S.erase m) m = S.erase m ++ [m] := toggleList_not_mem _ _ hnm
  refine ⟨fs1, _, h1, h2, ?_, erase_append_toFinset S m hm hnd⟩
  rw [persistedDisplay_setKey, gd1, ht1, ht2]

/-- C10 counterexample: for the stored display list [cost, cost] (two
elements, contains cost), toggling cost twice persists [token_pct, cost],
which is not the same element set as the stored list. -/
theorem toggle_display_order_cex :
    (toggle_display (FileState.parsed [("display", JVal.list [JVal.str "cost", JVal.str "cost"])])
        "cost").bind (fun f => toggle_display f "cost")
      = .ok (.parsed [("display", JVal.list [JVal.str "token_pct", JVal.str "cost"])])
    ∧ (["token_pct", "cost"] : List String).toFinset ≠ (["cost", "cost"] : List String).toFinset := by
  constructor
  · rfl
  · decide

/-- Witness for C10 on the stored list [cost, msg], toggling cost. -/
theorem toggle_display_order_witness :
    ∃ fs1 fs2, toggle_display (FileState.parsed
        [("display", JVal.list [JVal.str "cost", JVal.str "msg"])]) "cost" = .ok fs1
      ∧ toggle_display fs1 "cost" = .ok fs2
      ∧ persistedDisplay fs2 = some ((["cost", "msg"] : List String).erase "cost" ++ ["cost"])
      ∧ (((["cost", "msg"] : List String).erase "cost") ++ ["cost"]).toFinset
          = (["cost", "msg"] : List String).toFinset :=
  toggle_display_order [("display", JVal.list [JVal.str "cost", JVal.str "msg"])]
    ["cost", "msg"] "cost" rfl (by decide) (by decide) (by decide) (by decide) (by decide)

theorem main_idle (env : Env) (r : AnalysisResult)
    (himp : env.importOk = true) (hres : env.analyzeUsage = .ok r)
    (hb : r.blocks = []) : main env = .ok idleLines := by
  simp [main, himp, hres, hb]

theorem main_last (env : Env) (r : AnalysisResult) (b0 : Block) (bs : List Block)
    (himp : env.importOk = true) (hres : env.analyzeUsage = .ok r)
    (hb : r.blocks = b0 :: bs)
    (hfilt : (b0 :: bs).filter (fun b => b.isActive) = []) :
    main env = .ok (lastSessionLines ((b0 :: bs).getLast (List.cons_ne_nil b0 bs))) := by
  simp [main, himp, hres, hb, hfilt]

theorem main_active (env : Env) (r : AnalysisResult) (b : Block) (rest : List Block)
    (himp : env.importOk = true) (hres : env.analyzeUsage = .ok r)
    (hfilt : r.blocks.filter (fun x => x.isActive) = b :: rest) :
    main env = renderActive env r.blocks b := by
  cases hb : r.blocks with
  | nil => rw [hb] at hfilt; simp at hfilt
  | cons b0 bs =>
      rw [hb] at hfilt
      simp [main, himp, hres, hb, hfilt]

/-- C6: block selection in the render pipeline: an empty block list
renders the idle display; a non-empty list with no active block renders
the static last-session summary from the last block; otherwise the first
block flagged active drives the full dashboard. -/
theorem main_block_selection (env : Env) (r : AnalysisResult)
    (himp : env.importOk = true) (hres : env.analyzeUsage = .ok r) :
    (r.blocks = [] → main env = .ok idleLines)
  ∧ (∀ b0 bs, r.blocks = b0 :: bs → (b0 :: bs).filter (fun b => b.isActive) = [] →
       main env = .ok (lastSessionLines ((b0 :: bs).getLast (List.cons_ne_nil b0 bs))))
  ∧ (∀ b rest, r.blocks.filter (fun x => x.isActive) = b :: rest →
       main env = renderActive env r.blocks b) :=
  ⟨main_idle env r himp hres,
   fun b0 bs hb hf => main_last env r b0 bs himp hres hb hf,
   fun b rest hf => main_active env r b rest himp hres hf⟩

/-- Witness for C6 on a two-block snapshot whose second block is the only
active one. -/
theorem main_block_selection_witness :
    main envSel = renderActive envSel [blockIdleSel, blockSel] blockSel :=
  (main_block_selection envSel ⟨[blockIdleSel, blockSel]⟩ rfl rfl).2.2 blockSel [] (by rfl)

theorem renderActive_total (env : Env) (blocks : List Block) (b : Block)
    (ht : ∀ p bl, ∃ n, env.getTokenLimit p bl = .ok n)
    (hc : ∀ p, ∃ q, env.getCostLimit p = .ok q)
    (hmg : ∀ p, ∃ n, env.getMsgLimit p = .ok n) :
    ∃ lines, renderActive env blocks b = .ok lines := by
  obtain ⟨tl, htl⟩ := ht (get_plan env.ccmPlan env.config env.legacy) blocks
  obtain ⟨cl, hcl⟩ := hc (get_plan env.ccmPlan env.config env.legacy)
  obtain ⟨ml, hml⟩ := hmg (get_plan env.ccmPlan env.config env.legacy)
  refine ⟨activeLines env (get_plan env.ccmPlan env.config env.legacy) tl cl ml b, ?_⟩
  simp [renderActive, htl, hcl, hml]

theorem main_total (env : Env)
    (ht : ∀ p bl, ∃ n, env.getTokenLimit p bl = .ok n)
    (hc : ∀ p, ∃ q, env.getCostLimit p = .ok q)
    (hmg : ∀ p, ∃ n, env.getMsgLimit p = .ok n) :
    ∃ lines, main env = .ok lines := by
  by_cases hi : env.importOk
  · cases hres : env.analyzeUsage with
    | error e =>
        refine ⟨print_error_lines "Error loading data" (e.take 80), ?_⟩
        simp [main, hi, hres]
    | ok r =>
        cases hb : r.blocks with
        | nil => exact ⟨_, main_idle env r hi hres hb⟩
        | cons b0 bs =>
            cases hfilt : (b0 :: bs).filter (fun x => x.isActive) with
            | nil => exact ⟨_, main_last env r b0 bs hi hres hb hfilt⟩
            | cons b rest =>
                obtain ⟨lines, hlines⟩ := renderActive_total env (b0 :: bs) b ht hc hmg
                refine ⟨lines, ?_⟩
                rw [main_active env r b rest hi hres (by rw [hb]; exact hfilt), hb]
                exact hlines
  · refine ⟨noLibraryLines, ?_⟩
    simp [main, hi]

/-- C1 amended: the dispatcher exits 0 with no escaped exception for
every argv and every settings and legacy file content, provided the
settings file does not parse to a non-object JSON value and the three
plan-limit calls of the library return normally; the analyzer call and
the import may fail arbitrarily. -/
theorem dispatch_exit_zero (argv : List String) (env : Env)
    (hok : ∀ w, env.config ≠ FileState.invalidDoc w)
    (ht : ∀ p bl, ∃ n, env.getTokenLimit p bl = .ok n)
    (hc : ∀ p, ∃ q, env.getCostLimit p = .ok q)
    (hmg : ∀ p, ∃ n, env.getMsgLimit p = .ok n) :
    ∃ res : DispatchResult, script_dispatch argv env = .ok res ∧ res.exitCode = 0 := by
  obtain ⟨lines, hlines⟩ := main_total env ht hc hmg
  match argv with
  | [] => exact ⟨⟨env.config, lines, 0⟩, by simp [script_dispatch, hlines], rfl⟩
  | [a0] => exact ⟨⟨env.config, lines, 0⟩, by simp [script_dispatch, hlines], rfl⟩
  | [a0, a1] => exact ⟨⟨env.config, lines, 0⟩, by simp [script_dispatch, hlines], rfl⟩
  | a0 :: a1 :: a2 :: rest =>
      by_cases h1 : a1 = "--set-plan"
      · by_cases h2 : pyLowerStrip a2 ∈ VALID_PLANS
        · refine ⟨⟨FileState.parsed (setKey (configDoc env.config) "plan"
              (JVal.str (pyLowerStrip a2))), [], 0⟩, ?_, rfl⟩
          simp [script_dispatch, h1, h2, set_plan,
            save_config_total env.config "plan" (JVal.str (pyLowerStrip a2)) hok]
        · exact ⟨⟨env.config, [], 0⟩, by simp [script_dispatch, h1, h2], rfl⟩
      · by_cases h3 : a1 = "--toggle-display"
        · by_cases h4 : pyLowerStrip a2 ∈ valid_keys
          · refine ⟨⟨FileState.parsed (setKey (configDoc env.config) "display"
                (JVal.list ((toggleList (get_display env.config)
                  (pyLowerStrip a2)).map JVal.str))), [], 0⟩, ?_, rfl⟩
            simp [script_dispatch, h1, h3, h4,
              toggle_display_ok env.config (pyLowerStrip a2) hok]
          · exact ⟨⟨env.config, [], 0⟩, by simp [script_dispatch, h1, h3, h4], rfl⟩
        · exact ⟨⟨env.config, lines, 0⟩, by simp [script_dispatch, h1, h3, hlines], rfl⟩

/-- C1 counterexample: an exception raised by the unguarded
Plans.get_token_limit call escapes main, and a settings file parsing to a
JSON array makes the set-plan dispatch branch crash with a TypeError. -/
theorem unguarded_calls_cex :
    main envBoom = .error "boom"
  ∧ script_dispatch ["plugin.py", "--set-plan", "pro"] envNonObject = .error "TypeError" :=
  ⟨rfl, rfl⟩

/-- Witness for C1 on an environment whose library calls all return. -/
theorem dispatch_exit_zero_witness :
    ∃ res : DispatchResult, script_dispatch ["plugin.py"] envOkay = .ok res ∧ res.exitCode = 0 :=
  dispatch_exit_zero ["plugin.py"] envOkay (fun w h => by simp [envOkay, envBoom] at h)
    (fun p bl => ⟨100000, rfl⟩) (fun p => ⟨10, rfl⟩) (fun p => ⟨250, rfl⟩)

theorem roundHalfEven_int (n : Int) : roundHalfEven ((n : ℚ)) = n := by
  unfold roundHalfEven
  rw [Int.floor_intCast]
  rw [if_pos]
  rw [sub_self]
  norm_num

theorem fmtFixed_50_0 : fmtFixed 50 0 = "50" := by
  have h : roundHalfEven ((50 : ℚ) * (10 : ℚ) ^ (0 : Nat)) = 50 := by
    have : ((50 : ℚ) * (10 : ℚ) ^ (0 : Nat)) = ((50 : Int) : ℚ) := by norm_num
    rw [this, roundHalfEven_int]
  simp only [fmtFixed, h]
  rfl

theorem fmt_cost_5 : fmt_cost 5 = "$5.00" := by
  have h : roundHalfEven ((5 : ℚ) * (10 : ℚ) ^ (2 : Nat)) = 500 := by
    have : ((5 : ℚ) * (10 : ℚ) ^ (2 : Nat)) = ((500 : Int) : ℚ) := by norm_num
    rw [this, roundHalfEven_int]
  simp only [fmt_cost, fmtFixed, h]
  rfl

theorem title_5050 (msgE : ℚ) (messages L : Int) :
    format_title DEFAULT_DISPLAY 50 50 msgE 5 messages L = "TKN 50%  CST $5.00" := by
  simp only [format_title, DEFAULT_DISPLAY, List.filterMap_cons, List.filterMap_nil]
  norm_num
  rw [fmtFixed_50_0, fmt_cost_5]
  simp +decide

/-- C7: end-to-end title correctness: for a snapshot with one active
block with 50000 of 100000 tokens and 5 of 10 dollars, the default
display metrics enabled and a message percentage not exceeding the token
percentage, the rendered title line is TKN 50 percent and CST 5 dollars
with the overall color get_color 50, the 50-percent-tier yellow. -/
theorem title_end_to_end (env : Env) (b : Block) (L : Int)
    (himp : env.importOk = true)
    (hres : env.analyzeUsage = .ok ⟨[b]⟩)
    (hact : b.isActive = true)
    (htok : b.totalTokens = 50000)
    (hcost : b.costUSD = 5)
    (htl : env.getTokenLimit (get_plan env.ccmPlan env.config env.legacy) [b] = .ok 100000)
    (hcl : env.getCostLimit (get_plan env.ccmPlan env.config env.legacy) = .ok 10)
    (hml : env.getMsgLimit (get_plan env.ccmPlan env.config env.legacy) = .ok L)
    (hdisp : get_display env.config = DEFAULT_DISPLAY)
    (hmsg : (if 0 < L then (b.sentMessagesCount : ℚ) / (L : ℚ) * 100 else 0) ≤ 50) :
    (∃ rest, main env = .ok (("TKN 50%  CST $5.00" ++ " | color=" ++ get_color 50 ++ " font="
        ++ TITLE_FONT ++ " size=" ++ toString TITLE_SIZE ++ " offset="
        ++ toString TITLE_OFFSET) :: rest))
    ∧ get_color 50 = COLOR_YELLOW := by
  have hfilt : (AnalysisResult.mk [b]).blocks.filter (fun x => x.isActive) = b :: [] := by
    simp [hact]
  have hmain : main env = renderActive env [b] b :=
    main_active env ⟨[b]⟩ b [] himp hres hfilt
  have hrend : renderActive env [b] b
      = .ok (activeLines env (get_plan env.ccmPlan env.config env.legacy) 100000 10 L b) := by
    simp [renderActive, htl, hcl, hml]
  have hm1 : max (50 : ℚ) (if 0 < L then (b.sentMessagesCount : ℚ) / (L : ℚ) * 100 else 0)
      = 50 := max_eq_left hmsg
  have hAL : ∃ rest, activeLines env (get_plan env.ccmPlan env.config env.legacy) 100000 10 L b
      = ("TKN 50%  CST $5.00" ++ " | color=" ++ get_color 50 ++ " font="
          ++ TITLE_FONT ++ " size=" ++ toString TITLE_SIZE ++ " offset="
          ++ toString TITLE_OFFSET) :: rest := by
    apply Exists.intro
    simp only [activeLines, htok, hcost, hdisp]
    norm_num
    refine ⟨?_, rfl⟩
    rw [hm1]
    try rw [max_self]
    rw [title_5050]
  obtain ⟨rest, hALr⟩ := hAL
  refine ⟨⟨rest, ?_⟩, ?_⟩
  · rw [hmain, hrend, hALr]
  · rw [show (50 : ℚ) = ((50 : Int) : ℚ) by norm_num]
    unfold get_color
    rw [if_neg (by push_cast; norm_num), if_neg (by push_cast; norm_num),
      if_pos (by push_cast; norm_num)]

/-- Witness for C7 on the concrete title scenario environment. -/
theorem title_end_to_end_witness :
    (∃ rest, main envTitle = .ok (("TKN 50%  CST $5.00" ++ " | color=" ++ get_color 50 ++ " font="
        ++ TITLE_FONT ++ " size=" ++ toString TITLE_SIZE ++ " offset="
        ++ toString TITLE_OFFSET) :: rest))
    ∧ get_color 50 = COLOR_YELLOW :=
  title_end_to_end envTitle blockTitle 250 rfl rfl rfl rfl rfl rfl rfl rfl rfl
    (by norm_num [blockTitle])

end CCM
